import Mathlib

/-!
Shallow embedding of the session-oriented streaming transport of the
zabbix-mcp-server repository (src/http-stream-server.ts) and of the
authentication-fallback loop of its upstream API client
(src/zabbix-client.ts), together with proofs of the specified properties.

Modelling conventions:
* The Session Table (`this.sessions : Map<string, {server, transport,
  lastActivity}>`) is an association list with distinct keys; `Map.get`,
  `Map.set`, `Map.delete`, `Map.has` are `lookupSession`, `setSession`,
  `eraseSession`, `hasSession`.
* Session identifiers (`randomUUID()`) are modelled as naturals drawn from a
  monotone counter `nextId`; freshness of `randomUUID` becomes the invariant
  that every live key is below the counter.
* `Date.now()` timestamps are naturals.
* Exceptions become explicit result values; a `try/catch/finally` that
  swallows a `close()` failure becomes a `closeFails` flag that the result
  does not depend on.
-/

namespace ZabbixMCP

/-- One entry of the Session Table: the transport's internally tracked
session id (`transport.sessionId`, generated by the SSE transport itself and
not necessarily equal to the table key) and the `lastActivity` timestamp. -/
structure SessionRec where
  transportSessionId : Nat
  lastActivity : Nat
  deriving DecidableEq, Repr

/-- The Session Table, `this.sessions` in `MCPStreamServer`. -/
abbrev SessionTable := List (Nat × SessionRec)

/-- Lookup `this.sessions.get(id)`. -/
def lookupSession (tbl : SessionTable) (id : Nat) : Option SessionRec :=
  (List.find? (fun p => p.1 = id) tbl).map Prod.snd

/-- Test `this.sessions.has(id)`. -/
def hasSession (tbl : SessionTable) (id : Nat) : Bool :=
  List.any tbl (fun p => p.1 = id)

/-- Insertion `this.sessions.set(id, v)`: replace the entry in place when the key is
present, append at the end otherwise (JS `Map.set` semantics). -/
def setSession : SessionTable → Nat → SessionRec → SessionTable
  | [], id, v => [(id, v)]
  | p :: rest, id, v => if p.1 = id then (id, v) :: rest else p :: setSession rest id v

/-- Removal `this.sessions.delete(id)`. -/
def eraseSession (tbl : SessionTable) (id : Nat) : SessionTable :=
  List.filter (fun p => decide (p.1 ≠ id)) tbl

theorem lookupSession_nil (id : Nat) : lookupSession [] id = none := rfl

theorem lookupSession_cons (p : Nat × SessionRec) (tbl : SessionTable) (id : Nat) :
    lookupSession (p :: tbl) id =
      if p.1 = id then some p.2 else lookupSession tbl id := by
  by_cases h : p.1 = id <;> simp [lookupSession, List.find?, h]

theorem mem_of_lookupSession {tbl : SessionTable} {id : Nat} {s : SessionRec}
    (h : lookupSession tbl id = some s) : (id, s) ∈ tbl := by
  induction tbl with
  | nil => simp [lookupSession] at h
  | cons p rest ih =>
    rw [lookupSession_cons] at h
    by_cases hp : p.1 = id
    · simp only [if_pos hp] at h
      have hps : (id, s) = p := by
        cases p
        simp only [Option.some_inj] at h
        simp_all
      rw [hps]
      exact List.mem_cons_self _ _
    · simp only [if_neg hp] at h
      exact List.mem_cons_of_mem _ (ih h)

theorem lookupSession_eq_none_iff {tbl : SessionTable} {id : Nat} :
    lookupSession tbl id = none ↔ ∀ p ∈ tbl, p.1 ≠ id := by
  induction tbl with
  | nil => simp [lookupSession]
  | cons p rest ih =>
    rw [lookupSession_cons]
    by_cases hp : p.1 = id <;> simp [hp, ih]

theorem hasSession_iff_lookup {tbl : SessionTable} {id : Nat} :
    hasSession tbl id = true ↔ ∃ s, lookupSession tbl id = some s := by
  induction tbl with
  | nil => simp [hasSession, lookupSession]
  | cons p rest ih =>
    rw [lookupSession_cons]
    by_cases hp : p.1 = id <;> simp [hasSession, hp] at ih ⊢
    exact ih

theorem setSession_cons (p : Nat × SessionRec) (rest : SessionTable) (id : Nat)
    (v : SessionRec) :
    setSession (p :: rest) id v =
      if p.1 = id then (id, v) :: rest else p :: setSession rest id v := rfl

theorem lookupSession_setSession_self (tbl : SessionTable) (id : Nat) (v : SessionRec) :
    lookupSession (setSession tbl id v) id = some v := by
  induction tbl with
  | nil => simp [setSession, lookupSession_cons, lookupSession_nil]
  | cons p rest ih =>
    rw [setSession_cons]
    by_cases hp : p.1 = id
    · rw [if_pos hp, lookupSession_cons]
      simp
    · rw [if_neg hp, lookupSession_cons, if_neg hp]
      exact ih

theorem lookupSession_setSession_other (tbl : SessionTable) (id k : Nat) (v : SessionRec)
    (hne : k ≠ id) : lookupSession (setSession tbl id v) k = lookupSession tbl k := by
  induction tbl with
  | nil =>
    rw [lookupSession_nil]
    simp only [setSession, lookupSession_cons, lookupSession_nil]
    rw [if_neg (fun he => hne he.symm)]
  | cons p rest ih =>
    rw [setSession_cons]
    by_cases hp : p.1 = id
    · rw [if_pos hp, lookupSession_cons, lookupSession_cons, hp]
      rw [if_neg (fun he => hne he.symm), if_neg (fun he => hne he.symm)]
    · rw [if_neg hp, lookupSession_cons, lookupSession_cons]
      by_cases hk : p.1 = k
      · rw [if_pos hk, if_pos hk]
      · rw [if_neg hk, if_neg hk]
        exact ih

theorem eraseSession_cons (p : Nat × SessionRec) (rest : SessionTable) (id : Nat) :
    eraseSession (p :: rest) id =
      if p.1 = id then eraseSession rest id else p :: eraseSession rest id := by
  by_cases hp : p.1 = id <;> simp [eraseSession, List.filter_cons, hp]

theorem lookupSession_eraseSession_self (tbl : SessionTable) (id : Nat) :
    lookupSession (eraseSession tbl id) id = none := by
  induction tbl with
  | nil => rfl
  | cons p rest ih =>
    rw [eraseSession_cons]
    by_cases hp : p.1 = id
    · rw [if_pos hp]
      exact ih
    · rw [if_neg hp, lookupSession_cons, if_neg hp]
      exact ih

theorem lookupSession_eraseSession_other (tbl : SessionTable) (id k : Nat)
    (hne : k ≠ id) : lookupSession (eraseSession tbl id) k = lookupSession tbl k := by
  induction tbl with
  | nil => rfl
  | cons p rest ih =>
    rw [eraseSession_cons]
    by_cases hp : p.1 = id
    · rw [if_pos hp, lookupSession_cons, if_neg (by rw [hp]; exact fun he => hne he.symm)]
      exact ih
    · rw [if_neg hp, lookupSession_cons, lookupSession_cons]
      by_cases hk : p.1 = k
      · rw [if_pos hk, if_pos hk]
      · rw [if_neg hk, if_neg hk]
        exact ih

theorem mem_setSession {tbl : SessionTable} {id : Nat} {v : SessionRec} {p : Nat × SessionRec}
    (h : p ∈ setSession tbl id v) : p ∈ tbl ∨ p = (id, v) := by
  induction tbl with
  | nil =>
    right
    simpa [setSession] using h
  | cons q rest ih =>
    rw [setSession_cons] at h
    by_cases hq : q.1 = id
    · rw [if_pos hq] at h
      rcases List.mem_cons.mp h with h1 | h2
      · exact Or.inr h1
      · exact Or.inl (List.mem_cons_of_mem _ h2)
    · rw [if_neg hq] at h
      rcases List.mem_cons.mp h with h1 | h2
      · exact Or.inl (h1 ▸ List.mem_cons_self _ _)
      · rcases ih h2 with h3 | h4
        · exact Or.inl (List.mem_cons_of_mem _ h3)
        · exact Or.inr h4

theorem mem_eraseSession {tbl : SessionTable} {id : Nat} {p : Nat × SessionRec}
    (h : p ∈ eraseSession tbl id) : p ∈ tbl :=
  List.mem_of_mem_filter h

/-- Constant `sessionTimeout` in `startSessionCleanup`: `30 * 60 * 1000` ms. -/
def sessionTimeoutMs : Nat := 30 * 60 * 1000

/-- The `setInterval` period of `startSessionCleanup`: `5 * 60 * 1000` ms. -/
def sweepPeriodMs : Nat := 5 * 60 * 1000

/-- Teardown `MCPStreamServer.cleanupSession`: if the id is present, close the
session's server (a failure there is swallowed by `try/catch`, modelled by
the unused `closeFails` flag) and delete the entry in the `finally` block;
if the id is absent, do nothing. -/
def cleanupSession (closeFails : Bool) (tbl : SessionTable) (sessionId : Nat) : SessionTable :=
  match lookupSession tbl sessionId with
  | some _ => eraseSession tbl sessionId
  | none => tbl

theorem lookupSession_cleanupSession (b : Bool) (tbl : SessionTable) (k k' : Nat) :
    lookupSession (cleanupSession b tbl k) k' =
      if k' = k then none else lookupSession tbl k' := by
  unfold cleanupSession
  rcases h : lookupSession tbl k with _ | s
  · by_cases hk : k' = k
    · rw [if_pos hk, hk]
      exact h
    · rw [if_neg hk]
  · by_cases hk : k' = k
    · rw [if_pos hk, hk]
      exact lookupSession_eraseSession_self tbl k
    · rw [if_neg hk]
      exact lookupSession_eraseSession_other tbl k k' hk

theorem mem_cleanupSession {b : Bool} {tbl : SessionTable} {k : Nat} {p : Nat × SessionRec}
    (h : p ∈ cleanupSession b tbl k) : p ∈ tbl := by
  unfold cleanupSession at h
  rcases hl : lookupSession tbl k with _ | s <;> rw [hl] at h
  · exact h
  · exact mem_eraseSession h

/-- The eviction condition of the sweep in `startSessionCleanup`:
`now - session.lastActivity > sessionTimeout`. -/
def sweepCond (now : Nat) (s : SessionRec) : Bool :=
  decide (now - s.lastActivity > sessionTimeoutMs)

/-- The `for (const [sessionId, session] of this.sessions)` loop of the
sweep: iterate over a snapshot of the entries, evicting each timed-out one
through `cleanupSession` (the same teardown path as explicit close). -/
def sweepAux (now : Nat) : List (Nat × SessionRec) → SessionTable → SessionTable
  | [], acc => acc
  | p :: rest, acc =>
      sweepAux now rest (if sweepCond now p.2 then cleanupSession false acc p.1 else acc)

/-- One Reaper sweep (the body of the `setInterval` in
`startSessionCleanup`). -/
def sweepSessions (now : Nat) (tbl : SessionTable) : SessionTable :=
  sweepAux now tbl tbl

theorem lookupSession_sweepAux (now : Nat) (l : List (Nat × SessionRec)) :
    ∀ (acc : SessionTable) (id : Nat),
      lookupSession (sweepAux now l acc) id =
        if List.any l (fun p => p.1 == id && sweepCond now p.2) then none
        else lookupSession acc id := by
  induction l with
  | nil =>
    intro acc id
    simp [sweepAux]
  | cons p rest ih =>
    intro acc id
    simp only [sweepAux, List.any_cons]
    by_cases hc : sweepCond now p.2
    · rw [if_pos hc, ih, lookupSession_cleanupSession]
      by_cases hk : p.1 = id
      · subst hk
        simp only [hc, beq_self_eq_true, Bool.true_and, Bool.true_or, if_true,
          eq_self_iff_true, ite_self]
      · have hbeq : (p.1 == id) = false := by simpa using hk
        have hne : ¬id = p.1 := fun he => hk he.symm
        rw [if_neg hne]
        simp only [hbeq, Bool.false_and, Bool.false_or]
    · rw [if_neg hc, ih]
      have hcf : sweepCond now p.2 = false := by simpa using hc
      simp only [hcf, Bool.and_false, Bool.false_or]

theorem mem_sweepAux (now : Nat) (l : List (Nat × SessionRec)) :
    ∀ (acc : SessionTable) (p : Nat × SessionRec), p ∈ sweepAux now l acc → p ∈ acc := by
  induction l with
  | nil =>
    intro acc p h
    simpa [sweepAux] using h
  | cons q rest ih =>
    intro acc p h
    simp only [sweepAux] at h
    by_cases hc : sweepCond now q.2
    · rw [if_pos hc] at h
      exact mem_cleanupSession (ih _ _ h)
    · rw [if_neg hc] at h
      exact ih _ _ h

theorem any_key_cond_of_nodup {tbl : SessionTable} {id : Nat} {s : SessionRec}
    (c : SessionRec → Bool)
    (hnd : (List.map Prod.fst tbl).Nodup) (h : lookupSession tbl id = some s) :
    List.any tbl (fun p => p.1 == id && c p.2) = c s := by
  induction tbl with
  | nil => simp [lookupSession] at h
  | cons p rest ih =>
    rw [lookupSession_cons] at h
    simp only [List.map_cons, List.nodup_cons] at hnd
    by_cases hp : p.1 = id
    · rw [if_pos hp] at h
      injection h with h
      have hrest : ∀ q ∈ rest, q.1 ≠ id := by
        intro q hq he
        apply hnd.1
        have hm : q.1 ∈ List.map Prod.fst rest := List.mem_map_of_mem Prod.fst hq
        rw [he, ← hp] at hm
        exact hm
      have hany : List.any rest (fun q => q.1 == id && c q.2) = false := by
        rw [List.any_eq_false]
        intro q hq
        simp [hrest q hq]
      rw [List.any_cons, hany]
      have hbeq : (p.1 == id) = true := by simpa using hp
      rw [hbeq, h]
      simp
    · rw [if_neg hp] at h
      rw [List.any_cons]
      have hbeq : (p.1 == id) = false := by simpa using hp
      rw [hbeq, ih hnd.2 h]
      simp

theorem lookupSession_sweepSessions {tbl : SessionTable} {id : Nat} {s : SessionRec}
    (now : Nat) (hnd : (List.map Prod.fst tbl).Nodup)
    (h : lookupSession tbl id = some s) :
    lookupSession (sweepSessions now tbl) id =
      if sweepCond now s then none else some s := by
  unfold sweepSessions
  rw [lookupSession_sweepAux, any_key_cond_of_nodup (sweepCond now) hnd h]
  by_cases hc : sweepCond now s
  · rw [if_pos hc, if_pos hc]
  · rw [if_neg hc, if_neg hc]
    simp only [Bool.not_eq_true] at hc
    exact h

/-- The session-lifecycle state of `MCPStreamServer`: the Session Table plus
the fresh-id counter that models `randomUUID` (every id ever issued is below
`nextId`, so the next draw is fresh). -/
structure ServerState where
  sessions : SessionTable
  nextId : Nat
  deriving DecidableEq, Repr

/-- Messages pushed to the client over the SSE channel during open-session:
the `event: endpoint` message that the SDK transport's `start()` pushes
during `await server.connect(transport)`, carrying the transport's own
internal session id (the recorded wire output in SSE_SERVER_FIXED.md shows
it first on the channel), and the session-announcement envelope the handler
itself writes afterwards with
`res.write(data: JSON.stringify(\x7b type: 'session', sessionId \x7d))`. -/
inductive SseMsg where
  | endpoint (transportSessionId : Nat)
  | session (sessionId : Nat)
  deriving DecidableEq, Repr

/-- The observable steps of the GET /sse handler, in program order:
`this.sessions.set(...)`, `await server.connect(transport)` (which starts
the SSE connection — i.e. signals readiness — and makes the transport push
its `event: endpoint` message), and the handler's own `res.write(...)`. -/
inductive OpenStep where
  | register (sessionId : Nat)
  | connectTransport (tid : Nat)
  | writeMsg (m : SseMsg)
  deriving DecidableEq, Repr

/-- Messages that reach the client's channel from a trace of open-steps, in
order: `connectTransport` pushes the transport's `event: endpoint` message,
`writeMsg` pushes the handler's own write; registering in the Session Table
writes nothing. -/
def wireMessages : List OpenStep → List SseMsg
  | [] => []
  | OpenStep.register _ :: rest => wireMessages rest
  | OpenStep.connectTransport tid :: rest => SseMsg.endpoint tid :: wireMessages rest
  | OpenStep.writeMsg m :: rest => m :: wireMessages rest

/-- The GET /sse handler, success path: generate a fresh session id, build
the per-session server and transport (the transport draws its own internal
id `tid`), store the session BEFORE connecting, connect, then write the
session-announcement envelope. Returns the new state, the generated id and
the ordered trace of observable steps. -/
def openSession (st : ServerState) (t : Nat) (tid : Nat) :
    ServerState × Nat × List OpenStep :=
  let sessionId := st.nextId
  ({ sessions := setSession st.sessions sessionId ⟨tid, t⟩, nextId := sessionId + 1 },
   sessionId,
   [OpenStep.register sessionId, OpenStep.connectTransport tid,
    OpenStep.writeMsg (SseMsg.session sessionId)])

/-- Outcome of a GET /sse request. -/
inductive OpenOutcome where
  | opened
  | fatal500
  deriving DecidableEq, Repr

/-- The GET /sse handler with its two possible failure points: a throw while
constructing the per-session server/tools/transport (before
`this.sessions.set`), or a throw in `await server.connect(transport)` (after
the set). The catch branch logs and answers 500; it does not touch the
Session Table. -/
def openSessionAttempt (failAtSetup failAtConnect : Bool) (st : ServerState)
    (t tid : Nat) : ServerState × OpenOutcome :=
  let sessionId := st.nextId
  if failAtSetup then
    ({ st with nextId := sessionId + 1 }, OpenOutcome.fatal500)
  else
    let st1 : ServerState :=
      { sessions := setSession st.sessions sessionId ⟨tid, t⟩, nextId := sessionId + 1 }
    if failAtConnect then (st1, OpenOutcome.fatal500)
    else (st1, OpenOutcome.opened)

/-- Outcome of a POST /message request. -/
inductive PostResult where
  | badRequest400
  | notFound404
  | handled (actualSessionId : Nat)
  deriving DecidableEq, Repr

/-- JS `a || b` over the two addressing sources:
`req.query.sessionId as string || req.headers['x-session-id'] as string`. -/
def jsOrElse (q hdr : Option Nat) : Option Nat :=
  match q with
  | some a => some a
  | none => hdr

/-- The session-resolution loop of the POST /message handler: the first
entry whose transport-tracked id or table key equals the requested id
(`session.transport.sessionId === requestedSessionId || sessionId ===
requestedSessionId`). -/
def resolveSession (tbl : SessionTable) (requested : Nat) : Option (Nat × SessionRec) :=
  List.find? (fun p => p.2.transportSessionId = requested || p.1 = requested) tbl

/-- The POST /message handler: take the session id from the query parameter
or the X-Session-ID header, 400 if absent, 404 if it resolves to no live
session, otherwise refresh `lastActivity` to now and hand the message to the
resolved session's transport. -/
def handlePostMessage (st : ServerState) (t : Nat) (q hdr : Option Nat) :
    ServerState × PostResult :=
  match jsOrElse q hdr with
  | none => (st, PostResult.badRequest400)
  | some requested =>
    match resolveSession st.sessions requested with
    | none => (st, PostResult.notFound404)
    | some (k, s) =>
      ({ st with sessions := setSession st.sessions k { s with lastActivity := t } },
       PostResult.handled k)

/-- Outcome of a DELETE /session/:id request. -/
inductive DeleteResult where
  | terminated
  | notFound
  deriving DecidableEq, Repr

/-- The DELETE /session/:id handler: tear the session down through
`cleanupSession` when present, 404 otherwise. -/
def deleteSessionRoute (st : ServerState) (sessionId : Nat) :
    ServerState × DeleteResult :=
  if hasSession st.sessions sessionId then
    ({ st with sessions := cleanupSession false st.sessions sessionId },
     DeleteResult.terminated)
  else
    (st, DeleteResult.notFound)

/-- Events that touch the Session Table over a server run. -/
inductive SessionEvent where
  | openStream (t : Nat) (tid : Nat)
  | postMessage (t : Nat) (q hdr : Option Nat)
  | disconnect (sid : Nat)
  | deleteSession (sid : Nat)
  | sweep (t : Nat)
  deriving DecidableEq, Repr

/-- The `Date.now()` value observed by an event (0 for events that read no
clock). -/
def eventTime : SessionEvent → Nat
  | SessionEvent.openStream t _ => t
  | SessionEvent.postMessage t _ _ => t
  | SessionEvent.disconnect _ => 0
  | SessionEvent.deleteSession _ => 0
  | SessionEvent.sweep t => t

/-- One event's effect on the server state. -/
def stepEvent (st : ServerState) (e : SessionEvent) : ServerState :=
  match e with
  | SessionEvent.openStream t tid => (openSession st t tid).1
  | SessionEvent.postMessage t q hdr => (handlePostMessage st t q hdr).1
  | SessionEvent.disconnect sid =>
      { st with sessions := cleanupSession false st.sessions sid }
  | SessionEvent.deleteSession sid => (deleteSessionRoute st sid).1
  | SessionEvent.sweep t => { st with sessions := sweepSessions t st.sessions }

/-- The state at server start: empty Session Table. -/
def initialState : ServerState := { sessions := [], nextId := 0 }

/-- Run a list of events from server start. -/
def runEvents (evts : List SessionEvent) : ServerState :=
  List.foldl stepEvent initialState evts

theorem openSession_sessions (st : ServerState) (t tid : Nat) :
    (openSession st t tid).1.sessions = setSession st.sessions st.nextId ⟨tid, t⟩ := rfl

theorem handlePostMessage_noId (st : ServerState) (t : Nat) (q hdr : Option Nat)
    (h : jsOrElse q hdr = none) :
    handlePostMessage st t q hdr = (st, PostResult.badRequest400) := by
  simp only [handlePostMessage, h]

theorem handlePostMessage_notFound (st : ServerState) (t : Nat) (q hdr : Option Nat)
    (rid : Nat) (h1 : jsOrElse q hdr = some rid)
    (h2 : resolveSession st.sessions rid = none) :
    handlePostMessage st t q hdr = (st, PostResult.notFound404) := by
  simp only [handlePostMessage, h1, h2]

theorem handlePostMessage_found (st : ServerState) (t : Nat) (q hdr : Option Nat)
    (rid k : Nat) (s : SessionRec) (h1 : jsOrElse q hdr = some rid)
    (h2 : resolveSession st.sessions rid = some (k, s)) :
    handlePostMessage st t q hdr =
      ({ st with sessions := setSession st.sessions k { s with lastActivity := t } },
       PostResult.handled k) := by
  simp only [handlePostMessage, h1, h2]

theorem deleteSessionRoute_sessions (st : ServerState) (sid : Nat) :
    (deleteSessionRoute st sid).1.sessions =
      if hasSession st.sessions sid then cleanupSession false st.sessions sid
      else st.sessions := by
  unfold deleteSessionRoute
  split <;> rfl

/-- Every live session's `lastActivity` is at most `c`. -/
def allLastLe (tbl : SessionTable) (c : Nat) : Prop :=
  ∀ p ∈ tbl, p.2.lastActivity ≤ c

theorem allLastLe_stepEvent {st : ServerState} {c : Nat} {e : SessionEvent}
    (h : allLastLe st.sessions c) (ht : eventTime e ≤ c) :
    allLastLe (stepEvent st e).sessions c := by
  cases e with
  | openStream t tid =>
    intro p hp
    rw [show stepEvent st (SessionEvent.openStream t tid) = (openSession st t tid).1
          from rfl, openSession_sessions] at hp
    rcases mem_setSession hp with h1 | h2
    · exact h p h1
    · rw [h2]
      exact ht
  | postMessage t q hdr =>
    intro p hp
    have hp' : p ∈ (handlePostMessage st t q hdr).1.sessions := hp
    rcases hq : jsOrElse q hdr with _ | rid
    · rw [handlePostMessage_noId st t q hdr hq] at hp'
      exact h p hp'
    · rcases hr : resolveSession st.sessions rid with _ | ks
      · rw [handlePostMessage_notFound st t q hdr rid hq hr] at hp'
        exact h p hp'
      · obtain ⟨k, s⟩ := ks
        rw [handlePostMessage_found st t q hdr rid k s hq hr] at hp'
        rcases mem_setSession hp' with h1 | h2
        · exact h p h1
        · rw [h2]
          exact ht
  | disconnect sid =>
    intro p hp
    have hp' : p ∈ cleanupSession false st.sessions sid := hp
    exact h p (mem_cleanupSession hp')
  | deleteSession sid =>
    intro p hp
    have hp' : p ∈ (deleteSessionRoute st sid).1.sessions := hp
    rw [deleteSessionRoute_sessions] at hp'
    by_cases hh : hasSession st.sessions sid
    · rw [if_pos hh] at hp'
      exact h p (mem_cleanupSession hp')
    · rw [if_neg hh] at hp'
      exact h p hp'
  | sweep t =>
    intro p hp
    have hp' : p ∈ sweepAux t st.sessions st.sessions := hp
    exact h p (mem_sweepAux t st.sessions st.sessions p hp')

theorem allLastLe_foldl {c : Nat} :
    ∀ (evts : List SessionEvent) (st : ServerState),
      allLastLe st.sessions c → (∀ f ∈ evts, eventTime f ≤ c) →
      allLastLe (List.foldl stepEvent st evts).sessions c := by
  intro evts
  induction evts with
  | nil =>
    intro st h _
    exact h
  | cons e rest ih =>
    intro st h hf
    rw [List.foldl_cons]
    exact ih _ (allLastLe_stepEvent h (hf e (List.mem_cons_self _ _)))
      (fun f hf2 => hf f (List.mem_cons_of_mem _ hf2))

theorem lastActivity_mono_step {st : ServerState} {e : SessionEvent} {id : Nat}
    {s s' : SessionRec}
    (hinv : allLastLe st.sessions (eventTime e))
    (hb : lookupSession st.sessions id = some s)
    (ha : lookupSession (stepEvent st e).sessions id = some s') :
    s.lastActivity ≤ s'.lastActivity := by
  have hsle : s.lastActivity ≤ eventTime e := hinv _ (mem_of_lookupSession hb)
  cases e with
  | openStream t tid =>
    rw [show stepEvent st (SessionEvent.openStream t tid) = (openSession st t tid).1
          from rfl, openSession_sessions] at ha
    by_cases hk : id = st.nextId
    · rw [hk, lookupSession_setSession_self] at ha
      injection ha with he
      rw [← he]
      exact hsle
    · rw [lookupSession_setSession_other st.sessions st.nextId id _ hk, hb] at ha
      injection ha with he
      rw [he]
  | postMessage t q hdr =>
    have ha' : lookupSession (handlePostMessage st t q hdr).1.sessions id = some s' := ha
    rcases hq : jsOrElse q hdr with _ | rid
    · rw [handlePostMessage_noId st t q hdr hq, hb] at ha'
      injection ha' with he
      rw [he]
    · rcases hr : resolveSession st.sessions rid with _ | ks
      · rw [handlePostMessage_notFound st t q hdr rid hq hr, hb] at ha'
        injection ha' with he
        rw [he]
      · obtain ⟨k, srec⟩ := ks
        rw [handlePostMessage_found st t q hdr rid k srec hq hr] at ha'
        by_cases hk : id = k
        · rw [hk, lookupSession_setSession_self] at ha'
          injection ha' with he
          rw [← he]
          exact hsle
        · rw [lookupSession_setSession_other st.sessions k id _ hk, hb] at ha'
          injection ha' with he
          rw [he]
  | disconnect sid =>
    have ha' : lookupSession (cleanupSession false st.sessions sid) id = some s' := ha
    rw [lookupSession_cleanupSession] at ha'
    by_cases hid : id = sid
    · rw [if_pos hid] at ha'
      cases ha'
    · rw [if_neg hid, hb] at ha'
      injection ha' with he
      rw [he]
  | deleteSession sid =>
    have ha' : lookupSession (deleteSessionRoute st sid).1.sessions id = some s' := ha
    rw [deleteSessionRoute_sessions] at ha'
    by_cases hh : hasSession st.sessions sid
    · rw [if_pos hh, lookupSession_cleanupSession] at ha'
      by_cases hid : id = sid
      · rw [if_pos hid] at ha'
        cases ha'
      · rw [if_neg hid, hb] at ha'
        injection ha' with he
        rw [he]
    · rw [if_neg hh, hb] at ha'
      injection ha' with he
      rw [he]
  | sweep t =>
    have ha' : lookupSession (sweepAux t st.sessions st.sessions) id = some s' := ha
    rw [lookupSession_sweepAux] at ha'
    rcases hany : List.any st.sessions (fun p => p.1 == id && sweepCond t p.2) with _ | _
    · rw [hany] at ha'
      simp only [Bool.false_eq_true, if_false] at ha'
      rw [hb] at ha'
      injection ha' with he
      rw [he]
    · rw [hany] at ha'
      simp only [if_true] at ha'
      cases ha'

/-- JS `String.prototype.includes(pat)`: `pat` occurs contiguously in `s`. -/
def strContains (s pat : String) : Bool :=
  List.any (List.range (s.data.length + 1))
    (fun i => List.isPrefixOf pat.data (List.drop i s.data))

/-- Check `MCPStreamServer.validateReadOnly`: the call is rejected (the method
throws) iff read-only mode is on and the operation name includes none of
the substrings 'get', 'list', 'export'. -/
def validateReadOnlyRejects (readOnly : Bool) (operation : String) : Bool :=
  readOnly && !(List.any ["get", "list", "export"] (fun op => strContains operation op))

/-- The tools whose `case` in the CallToolRequestSchema switch starts with
`this.validateReadOnly(<tool name>)` — the tools the server treats as
mutating. -/
def readOnlyCheckedTools : List String :=
  ["host_create", "item_create", "dashboard_create",
   "proxmox_dashboard_create_single", "item_delete", "dashboard_update",
   "dashboard_delete", "proxmox_dashboard_create_dual",
   "proxmox_dashboard_add_widgets", "iops_item_create", "iops_dashboard_create"]

/-- All tool names handled by the CallToolRequestSchema switch. -/
def knownTools : List String :=
  ["host_get", "host_create", "item_get", "item_create", "dashboard_get",
   "dashboard_create", "proxmox_dashboard_create_single",
   "api_connectivity_check", "api_version_get", "hostgroup_get",
   "item_delete", "trigger_get", "problem_get", "history_get",
   "dashboard_update", "dashboard_delete", "proxmox_dashboard_create_dual",
   "proxmox_dashboard_add_widgets", "proxmox_hosts_analyze",
   "iops_item_create", "disk_devices_discover", "iops_dashboard_create",
   "verify_connectivity"]

/-- Number of Upstream API Gateway calls made by each tool's own body
(after any read-only check): the `zabbixClient.*` calls in its `case`.
The Proxmox/IOPS builders other than the analyze/discover tools only shape
configuration data locally. -/
def toolUpstreamCalls : String → Nat
  | "host_get" => 1
  | "host_create" => 1
  | "item_get" => 1
  | "item_create" => 1
  | "dashboard_get" => 1
  | "dashboard_create" => 1
  | "proxmox_dashboard_create_single" => 0
  | "api_connectivity_check" => 0
  | "api_version_get" => 1
  | "hostgroup_get" => 1
  | "item_delete" => 1
  | "trigger_get" => 1
  | "problem_get" => 1
  | "history_get" => 1
  | "dashboard_update" => 1
  | "dashboard_delete" => 1
  | "proxmox_dashboard_create_dual" => 0
  | "proxmox_dashboard_add_widgets" => 0
  | "proxmox_hosts_analyze" => 1
  | "iops_item_create" => 0
  | "disk_devices_discover" => 1
  | "iops_dashboard_create" => 0
  | "verify_connectivity" => 1
  | _ => 0

/-- Result of one CallToolRequestSchema invocation. -/
inductive ToolCallResult where
  | policyError (operation : String)
  | success (name : String)
  | unknownTool (name : String)
  deriving DecidableEq, Repr

/-- The CallToolRequestSchema switch: an unknown name throws; a tool whose
case begins with `validateReadOnly` first runs the read-only check and
aborts with the policy error when it rejects; otherwise the tool body runs,
making its upstream calls. Returns the result and the number of Upstream
API Gateway calls made by the tool body. -/
def dispatchTool (readOnly : Bool) (name : String) : ToolCallResult × Nat :=
  if List.contains knownTools name then
    if List.contains readOnlyCheckedTools name && validateReadOnlyRejects readOnly name then
      (ToolCallResult.policyError name, 0)
    else
      (ToolCallResult.success name, toolUpstreamCalls name)
  else
    (ToolCallResult.unknownTool name, 0)

/-- The full CallToolRequestSchema handler: before the switch it runs
`if (!this.zabbixClient.isAuthenticated()) await this.zabbixClient.login()`,
an Upstream API Gateway interaction when the client holds no token yet.
Returns the result and the total number of upstream calls. -/
def callToolPipeline (authenticated readOnly : Bool) (name : String) :
    ToolCallResult × Nat :=
  let loginCalls := if authenticated then 0 else 1
  let r := dispatchTool readOnly name
  (r.1, loginCalls + r.2)

/-- Which credential the upstream client attaches to an attempt. -/
inductive AuthStyle where
  | bearer
  | legacy
  | noAuth
  deriving DecidableEq, Repr

/-- What the gateway answers to one HTTP attempt of `ZabbixClient.request`:
a successful JSON-RPC result, a JSON-RPC `error` member, or an axios-level
HTTP failure. -/
inductive AttemptOutcome where
  | ok (result : String)
  | apiError (code : Int) (message : String)
  | httpError (message : String)
  deriving DecidableEq, Repr

/-- The credential style `ZabbixClient.request` uses on a given attempt:
with a token and a method other than `user.login`/`apiinfo.version`, attempt
0 sets `Authorization: Bearer`, attempt 1 deletes it and sets the legacy
`payload.auth` parameter; otherwise no credential is attached. -/
def authStyleFor (hasToken special : Bool) (attempts : Nat) : AuthStyle :=
  if hasToken && !special then
    (if attempts == 0 then AuthStyle.bearer else AuthStyle.legacy)
  else AuthStyle.noAuth

/-- The message of the `Error` thrown for a JSON-RPC `error` member that the
inner fallback did not absorb. -/
def wrapApiError (code : Int) (message : String) : String :=
  (if code == -32602 && strContains message "Not authorized"
   then "Zabbix API Authorization Error: "
   else "Zabbix API Error: ") ++ message ++ " (" ++ toString code ++ ")"

/-- Constant `maxAuthAttempts` in `ZabbixClient.request`. -/
def maxAuthAttempts : Nat := 2

/-- The `while (authAttempts < maxAuthAttempts)` loop of
`ZabbixClient.request`, with `fuel = maxAuthAttempts - authAttempts`.
`oracle n` is the gateway's reply to attempt `n`. Returns the list of
credential styles of the attempts actually made, and the final result. -/
def requestAux (hasToken special : Bool) (oracle : Nat → AttemptOutcome) :
    Nat → Nat → List AuthStyle × Except String String
  | _, 0 => ([], Except.error "All authentication methods failed")
  | attempts, fuel + 1 =>
    let style := authStyleFor hasToken special attempts
    match oracle attempts with
    | AttemptOutcome.ok v => ([style], Except.ok v)
    | AttemptOutcome.apiError code msg =>
      if code == -32602 && strContains msg "auth" && attempts == 0 then
        let r := requestAux hasToken special oracle (attempts + 1) fuel
        (style :: r.1, r.2)
      else
        let thrown := wrapApiError code msg
        if decide (attempts < maxAuthAttempts - 1) && strContains thrown "auth" then
          let r := requestAux hasToken special oracle (attempts + 1) fuel
          (style :: r.1, r.2)
        else
          ([style], Except.error ("Zabbix API request failed: " ++ thrown))
    | AttemptOutcome.httpError msg =>
      if decide (attempts < maxAuthAttempts - 1) && strContains msg "auth" then
        let r := requestAux hasToken special oracle (attempts + 1) fuel
        (style :: r.1, r.2)
      else
        ([style], Except.error ("HTTP Error: " ++ msg))

/-- Entry point `ZabbixClient.request` for a method run with (`hasToken`) or without a
stored auth token; `special` marks `user.login`/`apiinfo.version`. -/
def zabbixRequest (hasToken special : Bool) (oracle : Nat → AttemptOutcome) :
    List AuthStyle × Except String String :=
  requestAux hasToken special oracle 0 maxAuthAttempts

/-- The conditions under which the first attempt's failure is retried with
the legacy credential (either the inner `-32602`/'auth' fallback or the
catch-level retry on an error message containing 'auth'). -/
def recoverableFirst : AttemptOutcome → Bool
  | AttemptOutcome.ok _ => false
  | AttemptOutcome.apiError code msg =>
      (code == -32602 && strContains msg "auth") ||
        strContains (wrapApiError code msg) "auth"
  | AttemptOutcome.httpError msg => strContains msg "auth"

/-- Whether a request result is an error. -/
def isErrorResult : Except String String → Bool
  | Except.error _ => true
  | Except.ok _ => false

theorem cleanupSession_absent (b : Bool) (tbl : SessionTable) (id : Nat)
    (h : lookupSession tbl id = none) : cleanupSession b tbl id = tbl := by
  unfold cleanupSession
  rw [h]

/-- C10: with read-only mode on, `validateReadOnly` rejects an operation iff
its name contains none of the substrings 'get', 'list', 'export'; hence any
tool name containing one of them anywhere — including
`proxmox_dashboard_add_widgets`, whose name contains 'get' inside 'widgets'
— is never rejected by the read-only policy check. -/
theorem readOnly_check_iff_no_marker :
    (∀ (ro : Bool) (op : String),
      validateReadOnlyRejects ro op = true ↔
        (ro = true ∧ strContains op "get" = false ∧ strContains op "list" = false ∧
         strContains op "export" = false)) ∧
    (∀ ro : Bool,
      validateReadOnlyRejects ro "proxmox_dashboard_add_widgets" = false) := by
  constructor
  · intro ro op
    unfold validateReadOnlyRejects
    cases ro <;> cases h1 : strContains op "get" <;>
      cases h2 : strContains op "list" <;> cases h3 : strContains op "export" <;>
      simp [h1, h2, h3]
  · intro ro
    unfold validateReadOnlyRejects
    have hg : strContains "proxmox_dashboard_add_widgets" "get" = true := by decide
    simp [hg]

/-- Witness for C10: `host_create` is rejected in read-only mode. -/
theorem readOnly_check_iff_no_marker_witness :
    validateReadOnlyRejects true "host_create" = true :=
  (readOnly_check_iff_no_marker.1 true "host_create").mpr
    ⟨rfl, by decide, by decide, by decide⟩

/-- C3 (evaluation at the failing input): with read-only on, every tool the
switch passes through `validateReadOnly` except
`proxmox_dashboard_add_widgets` is answered with the policy error and its
body makes zero Upstream API Gateway calls; `proxmox_dashboard_add_widgets`,
although the code runs the read-only check on it, is NOT rejected — its name
contains 'get' — and its body proceeds. -/
theorem readOnly_add_widgets_not_rejected :
    dispatchTool true "proxmox_dashboard_add_widgets" =
      (ToolCallResult.success "proxmox_dashboard_add_widgets", 0) ∧
    List.all readOnlyCheckedTools
      (fun name => name == "proxmox_dashboard_add_widgets" ||
        dispatchTool true name == (ToolCallResult.policyError name, 0)) = true := by
  constructor
  · decide
  · decide

/-- C2: a POST /message whose supplied session id (query parameter or
X-Session-ID header) resolves to no live entry in the Session Table answers
the 404 "not found" error and leaves the whole state — in particular the
Session Table — unchanged. -/
theorem post_unknown_session_404 (st : ServerState) (t : Nat) (q hdr : Option Nat)
    (rid : Nat) (h1 : jsOrElse q hdr = some rid)
    (h2 : resolveSession st.sessions rid = none) :
    handlePostMessage st t q hdr = (st, PostResult.notFound404) :=
  handlePostMessage_notFound st t q hdr rid h1 h2

/-- Witness for C2: an id that was never issued is rejected with 404 and the
table keeps exactly its one live session. -/
theorem post_unknown_session_404_witness :
    handlePostMessage ⟨[(0, ⟨5, 10⟩)], 1⟩ 42 (some 7) none =
      (⟨[(0, ⟨5, 10⟩)], 1⟩, PostResult.notFound404) :=
  post_unknown_session_404 ⟨[(0, ⟨5, 10⟩)], 1⟩ 42 (some 7) none 7 rfl (by decide)

/-- C8: the dispatch id is taken from the `sessionId` query parameter, or
from the `X-Session-ID` header when the query parameter is absent; and it
resolves to a live session exactly when some table entry has its
transport-tracked id or its table key equal to the supplied id (so an outer
id that differs from the channel's internal id still resolves). -/
theorem post_addressing_and_resolution :
    (∀ (a : Nat) (hdr : Option Nat), jsOrElse (some a) hdr = some a) ∧
    (∀ hdr : Option Nat, jsOrElse none hdr = hdr) ∧
    (∀ (tbl : SessionTable) (rid : Nat),
      (∃ p, resolveSession tbl rid = some p) ↔
        ∃ p ∈ tbl, p.2.transportSessionId = rid ∨ p.1 = rid) := by
  refine ⟨fun a hdr => rfl, fun hdr => rfl, ?_⟩
  intro tbl rid
  constructor
  · rintro ⟨p, hp⟩
    refine ⟨p, List.mem_of_find?_eq_some hp, ?_⟩
    have hpred := List.find?_some hp
    simpa using hpred
  · rintro ⟨p, hm, hor⟩
    have hsome : (resolveSession tbl rid).isSome = true := by
      unfold resolveSession
      rw [List.find?_isSome]
      exact ⟨p, hm, by simpa using hor⟩
    rcases hr : resolveSession tbl rid with _ | q
    · rw [hr] at hsome
      cases hsome
    · exact ⟨q, rfl⟩

/-- Witness for C8: a session whose table key (0) differs from its
transport-tracked id (99) is resolvable through the transport id. -/
theorem post_addressing_and_resolution_witness :
    ∃ p, resolveSession [(0, ⟨99, 1⟩)] 99 = some p :=
  (post_addressing_and_resolution.2.2 [(0, ⟨99, 1⟩)] 99).mpr
    ⟨(0, ⟨99, 1⟩), by decide, Or.inl (by decide)⟩

/-- C5: session teardown is idempotent: cleaning up an id with no table
entry is a no-op (and, the `close()` failure being swallowed, never an
exception — the result does not depend on whether `close()` throws); after
any cleanup, first or repeated, the table holds no entry for the id. -/
theorem cleanupSession_idempotent (b b' : Bool) (tbl : SessionTable) (id : Nat) :
    (lookupSession tbl id = none → cleanupSession b tbl id = tbl) ∧
    lookupSession (cleanupSession b tbl id) id = none ∧
    cleanupSession b' (cleanupSession b tbl id) id = cleanupSession b tbl id ∧
    cleanupSession b tbl id = cleanupSession b' tbl id := by
  have h2 : lookupSession (cleanupSession b tbl id) id = none := by
    rw [lookupSession_cleanupSession]
    simp
  exact ⟨cleanupSession_absent b tbl id, h2,
    cleanupSession_absent b' (cleanupSession b tbl id) id h2, rfl⟩

/-- Witness for C5: cleanup on an empty table is a no-op; after a cleanup of
a live session its id is gone. -/
theorem cleanupSession_idempotent_witness :
    cleanupSession true [] 3 = [] ∧
    lookupSession (cleanupSession true [(3, ⟨3, 0⟩)] 3) 3 = none :=
  ⟨(cleanupSession_idempotent true false [] 3).1 rfl,
   (cleanupSession_idempotent true false [(3, ⟨3, 0⟩)] 3).2.1⟩

/-- C4: the Reaper sweep (run every `sweepPeriodMs` = 5 min) evicts, through
the `cleanupSession` teardown path invoked by `sweepAux`, exactly the
sessions whose `lastActivity` is older than the `sessionTimeoutMs` = 30 min
idle timeout at sweep time, and keeps every other session untouched. -/
theorem sweep_evicts_iff_timed_out :
    (∀ (now : Nat) (tbl : SessionTable),
      (List.map Prod.fst tbl).Nodup → ∀ (id : Nat) (s : SessionRec),
      lookupSession tbl id = some s →
      lookupSession (sweepSessions now tbl) id =
        if now - s.lastActivity > sessionTimeoutMs then none else some s) ∧
    sessionTimeoutMs = 30 * 60 * 1000 ∧ sweepPeriodMs = 5 * 60 * 1000 := by
  refine ⟨?_, rfl, rfl⟩
  intro now tbl hnd id s h
  have hs := lookupSession_sweepSessions now hnd h
  simpa [sweepCond] using hs

/-- Witness for C4: at `now = 1800001` a session idle since 0 is evicted and
a session idle since 1 survives. -/
theorem sweep_evicts_iff_timed_out_witness :
    lookupSession (sweepSessions 1800001 [(0, ⟨0, 0⟩), (1, ⟨1, 1⟩)]) 0 = none ∧
    lookupSession (sweepSessions 1800001 [(0, ⟨0, 0⟩), (1, ⟨1, 1⟩)]) 1 = some ⟨1, 1⟩ := by
  constructor
  · have h := sweep_evicts_iff_timed_out.1 1800001 [(0, ⟨0, 0⟩), (1, ⟨1, 1⟩)]
      (by decide) 0 ⟨0, 0⟩ rfl
    rw [h]
    decide
  · have h := sweep_evicts_iff_timed_out.1 1800001 [(0, ⟨0, 0⟩), (1, ⟨1, 1⟩)]
      (by decide) 1 ⟨1, 1⟩ rfl
    rw [h]
    decide

/-- C1 counterexample: the session-announcement envelope is NOT the first
message pushed on the newly opened channel. At a concrete open-session the
first wire message is the transport's `event: endpoint` message — pushed
during `await server.connect(transport)` and carrying the transport's own
internal id, not the generated session id — and only the channel's second
message is the session envelope, exactly as the recorded wire output in
SSE_SERVER_FIXED.md shows. -/
theorem openSession_envelope_not_first_on_wire :
    (wireMessages (openSession initialState 5 7).2.2).head? =
      some (SseMsg.endpoint 7) ∧
    (wireMessages (openSession initialState 5 7).2.2).head? ≠
      some (SseMsg.session (openSession initialState 5 7).2.1) := by
  constructor
  · rfl
  · decide

/-- C1 amended: open-session draws a fresh id (not live in the table, given
that every issued key is below the counter) and registers the session — with
`lastActivity` set to now — BEFORE `server.connect` signals readiness; the
session-announcement envelope carrying the generated id is the first (and
only) message the handler itself writes, but the SECOND message pushed on
the newly opened channel: it is immediately preceded by the transport's
`event: endpoint` message, pushed during connect. The returned step trace is
exactly register, connect, write-envelope, and the channel carries exactly
`[endpoint tid, session id]`. -/
theorem openSession_fresh_registered_announced (st : ServerState) (t tid : Nat)
    (hfresh : ∀ p ∈ st.sessions, p.1 < st.nextId) :
    lookupSession st.sessions (openSession st t tid).2.1 = none ∧
    lookupSession (openSession st t tid).1.sessions (openSession st t tid).2.1 =
      some ⟨tid, t⟩ ∧
    (openSession st t tid).2.2 =
      [OpenStep.register (openSession st t tid).2.1, OpenStep.connectTransport tid,
       OpenStep.writeMsg (SseMsg.session (openSession st t tid).2.1)] ∧
    wireMessages (openSession st t tid).2.2 =
      [SseMsg.endpoint tid, SseMsg.session (openSession st t tid).2.1] := by
  refine ⟨?_, ?_, rfl, rfl⟩
  · rw [show (openSession st t tid).2.1 = st.nextId from rfl,
      lookupSession_eq_none_iff]
    intro p hp
    exact Nat.ne_of_lt (hfresh p hp)
  · rw [show (openSession st t tid).2.1 = st.nextId from rfl, openSession_sessions,
      lookupSession_setSession_self]

/-- Witness for C1's amended theorem: opening the first session from the
initial state registers it under the fresh id 0 with `lastActivity` 5. -/
theorem openSession_fresh_registered_announced_witness :
    lookupSession (openSession initialState 5 7).1.sessions
      (openSession initialState 5 7).2.1 = some ⟨7, 5⟩ :=
  (openSession_fresh_registered_announced initialState 5 7
    (by intro p hp; simp [initialState] at hp)).2.1

/-- C7 counterexample: when `await server.connect(transport)` throws — a
transport-connection failure during open-session — the handler answers a
fatal 500, yet the session registered just before the `connect` stays in
the Session Table: a half-registered session remains, contradicting the
claim that no half-registered session is left behind. -/
theorem openSession_connect_failure_leaves_session :
    (openSessionAttempt false true initialState 5 7).2 = OpenOutcome.fatal500 ∧
    lookupSession (openSessionAttempt false true initialState 5 7).1.sessions 0 =
      some ⟨7, 5⟩ := by
  constructor
  · rfl
  · rfl

/-- C7 amended: a failure before registration (per-session server, tool
setup or transport construction) returns a fatal 500 and leaves the Session
Table unchanged; a failure of the transport connection — which happens after
registration — also returns a fatal 500, but the just-registered entry
remains in the Session Table (the catch branch does not remove it). -/
theorem openSessionAttempt_failure_modes (st : ServerState) (t tid : Nat)
    (fs fc : Bool) :
    ((openSessionAttempt fs fc st t tid).2 = OpenOutcome.fatal500 ↔
      (fs = true ∨ fc = true)) ∧
    (fs = true → (openSessionAttempt fs fc st t tid).1.sessions = st.sessions) ∧
    (fs = false → fc = true →
      lookupSession (openSessionAttempt fs fc st t tid).1.sessions st.nextId =
        some ⟨tid, t⟩) := by
  cases fs <;> cases fc <;>
    exact ⟨by simp [openSessionAttempt], by simp [openSessionAttempt],
      by simp [openSessionAttempt, lookupSession_setSession_self]⟩

/-- Witness for C7's amended theorem: a setup failure leaves the initial
(empty) table unchanged. -/
theorem openSessionAttempt_failure_modes_witness :
    (openSessionAttempt true false initialState 1 2).1.sessions =
      initialState.sessions :=
  (openSessionAttempt_failure_modes initialState 1 2 true false).2.1 rfl

/-- C6: a dispatch routed to a live session rewrites that session's entry
with `lastActivity` = the call's now; and over any chronologically ordered
event run, a session live before and after an event never sees its
`lastActivity` decrease. -/
theorem lastActivity_refresh_and_monotone :
    (∀ (st : ServerState) (t : Nat) (q hdr : Option Nat) (rid k : Nat)
      (s : SessionRec),
      jsOrElse q hdr = some rid →
      resolveSession st.sessions rid = some (k, s) →
      lookupSession (handlePostMessage st t q hdr).1.sessions k =
        some { s with lastActivity := t }) ∧
    (∀ (tr : List SessionEvent) (e : SessionEvent) (id : Nat) (s s' : SessionRec),
      (∀ f ∈ tr, eventTime f ≤ eventTime e) →
      lookupSession (runEvents tr).sessions id = some s →
      lookupSession (runEvents (tr ++ [e])).sessions id = some s' →
      s.lastActivity ≤ s'.lastActivity) := by
  constructor
  · intro st t q hdr rid k s h1 h2
    rw [handlePostMessage_found st t q hdr rid k s h1 h2]
    exact lookupSession_setSession_self st.sessions k { s with lastActivity := t }
  · intro tr e id s s' hchrono hb ha
    have hrun : runEvents (tr ++ [e]) = stepEvent (runEvents tr) e := by
      unfold runEvents
      rw [List.foldl_append]
      rfl
    rw [hrun] at ha
    have hinv : allLastLe (runEvents tr).sessions (eventTime e) :=
      allLastLe_foldl tr initialState (by intro p hp; simp [initialState] at hp)
        hchrono
    exact lastActivity_mono_step hinv hb ha

/-- Witness for C6: a dispatch at now = 50, addressed through the
transport-tracked id 9, refreshes the session's `lastActivity` from 1 to
50. -/
theorem lastActivity_refresh_and_monotone_witness :
    lookupSession (handlePostMessage ⟨[(0, ⟨9, 1⟩)], 1⟩ 50 (some 9) none).1.sessions
      0 = some ⟨9, 50⟩ :=
  lastActivity_refresh_and_monotone.1 ⟨[(0, ⟨9, 1⟩)], 1⟩ 50 (some 9) none 9 0
    ⟨9, 1⟩ rfl rfl

theorem requestAux_second (oracle : Nat → AttemptOutcome) :
    (requestAux true false oracle 1 1).1 = [AuthStyle.legacy] ∧
    (∀ v, oracle 1 = AttemptOutcome.ok v →
      (requestAux true false oracle 1 1).2 = Except.ok v) ∧
    ((∀ v, oracle 1 ≠ AttemptOutcome.ok v) →
      isErrorResult (requestAux true false oracle 1 1).2 = true) := by
  rcases h1 : oracle 1 with v | ⟨code, msg⟩ | msg
  · refine ⟨?_, ?_, ?_⟩
    · simp [requestAux, authStyleFor, h1]
    · intro w hw
      injection hw with hw
      subst hw
      simp [requestAux, authStyleFor, h1]
    · intro hno
      exact absurd rfl (hno v)
  · refine ⟨?_, ?_, ?_⟩
    · simp [requestAux, authStyleFor, h1, maxAuthAttempts]
    · intro w hw
      exact AttemptOutcome.noConfusion hw
    · intro _
      simp [requestAux, authStyleFor, h1, maxAuthAttempts, isErrorResult]
  · refine ⟨?_, ?_, ?_⟩
    · simp [requestAux, authStyleFor, h1, maxAuthAttempts]
    · intro w hw
      exact AttemptOutcome.noConfusion hw
    · intro _
      simp [requestAux, authStyleFor, h1, maxAuthAttempts, isErrorResult]

/-- C9: with a stored token and a method other than `user.login` /
`apiinfo.version`, the first attempt carries the Bearer header; the legacy
`auth`-parameter fallback is taken exactly when the first attempt fails
recoverably (an 'auth'-related error), and at most once — the attempt trace
is `[bearer]` or `[bearer, legacy]`, never longer; a success on the first
attempt is returned as-is, and when the fallback attempt also fails the
request ends in an error instead of retrying further. -/
theorem request_bearer_then_legacy_capped (oracle : Nat → AttemptOutcome) :
    ((zabbixRequest true false oracle).1 = [AuthStyle.bearer] ∨
     (zabbixRequest true false oracle).1 = [AuthStyle.bearer, AuthStyle.legacy]) ∧
    ((zabbixRequest true false oracle).1 = [AuthStyle.bearer, AuthStyle.legacy] ↔
      recoverableFirst (oracle 0) = true) ∧
    (∀ v, oracle 0 = AttemptOutcome.ok v →
      zabbixRequest true false oracle = ([AuthStyle.bearer], Except.ok v)) ∧
    (recoverableFirst (oracle 0) = true → (∀ v, oracle 1 ≠ AttemptOutcome.ok v) →
      isErrorResult (zabbixRequest true false oracle).2 = true) := by
  obtain ⟨hsec1, hsec2, hsec3⟩ := requestAux_second oracle
  rcases h0 : oracle 0 with v | ⟨code, msg⟩ | msg
  · have hred : zabbixRequest true false oracle = ([AuthStyle.bearer], Except.ok v) := by
      simp [zabbixRequest, maxAuthAttempts, requestAux, authStyleFor, h0]
    refine ⟨Or.inl (by rw [hred]), ?_, ?_, ?_⟩
    · rw [hred]
      simp [recoverableFirst]
    · intro w hw
      injection hw with hw
      rw [hred, hw]
    · intro hrec
      simp [recoverableFirst] at hrec
  · by_cases hg1 : (code == -32602 && strContains msg "auth") = true
    · have hred : zabbixRequest true false oracle =
          (AuthStyle.bearer :: (requestAux true false oracle 1 1).1,
           (requestAux true false oracle 1 1).2) := by
        simp [zabbixRequest, maxAuthAttempts, requestAux, authStyleFor, h0, hg1]
      have hrec : recoverableFirst (AttemptOutcome.apiError code msg) = true := by
        simp [recoverableFirst, hg1]
      refine ⟨Or.inr (by rw [hred]; simp [hsec1]), ?_, ?_, ?_⟩
      · rw [hred]
        simp [hsec1, hrec]
      · intro w hw
        exact AttemptOutcome.noConfusion hw
      · intro _ hno
        rw [hred]
        exact hsec3 hno
    · have hg1f : (code == -32602 && strContains msg "auth") = false := by
        simpa using hg1
      by_cases hg2 : strContains (wrapApiError code msg) "auth" = true
      · have hred : zabbixRequest true false oracle =
            (AuthStyle.bearer :: (requestAux true false oracle 1 1).1,
             (requestAux true false oracle 1 1).2) := by
          simp [zabbixRequest, maxAuthAttempts, requestAux, authStyleFor, h0,
            hg1f, hg2]
        have hrec : recoverableFirst (AttemptOutcome.apiError code msg) = true := by
          simp [recoverableFirst, hg2]
        refine ⟨Or.inr (by rw [hred]; simp [hsec1]), ?_, ?_, ?_⟩
        · rw [hred]
          simp [hsec1, hrec]
        · intro w hw
          exact AttemptOutcome.noConfusion hw
        · intro _ hno
          rw [hred]
          exact hsec3 hno
      · have hg2f : strContains (wrapApiError code msg) "auth" = false := by
          simpa using hg2
        have hred : zabbixRequest true false oracle =
            ([AuthStyle.bearer],
             Except.error ("Zabbix API request failed: " ++ wrapApiError code msg)) := by
          simp [zabbixRequest, maxAuthAttempts, requestAux, authStyleFor, h0,
            hg1f, hg2f]
        refine ⟨Or.inl (by rw [hred]), ?_, ?_, ?_⟩
        · rw [hred]
          simp [recoverableFirst, hg1f, hg2f]
        · intro w hw
          exact AttemptOutcome.noConfusion hw
        · intro _ _
          rw [hred]
          rfl
  · by_cases hg3 : strContains msg "auth" = true
    · have hred : zabbixRequest true false oracle =
          (AuthStyle.bearer :: (requestAux true false oracle 1 1).1,
           (requestAux true false oracle 1 1).2) := by
        simp [zabbixRequest, maxAuthAttempts, requestAux, authStyleFor, h0, hg3]
      have hrec : recoverableFirst (AttemptOutcome.httpError msg) = true := by
        simpa [recoverableFirst] using hg3
      refine ⟨Or.inr (by rw [hred]; simp [hsec1]), ?_, ?_, ?_⟩
      · rw [hred]
        simp [hsec1, hrec]
      · intro w hw
        exact AttemptOutcome.noConfusion hw
      · intro _ hno
        rw [hred]
        exact hsec3 hno
    · have hg3f : strContains msg "auth" = false := by simpa using hg3
      have hred : zabbixRequest true false oracle =
          ([AuthStyle.bearer], Except.error ("HTTP Error: " ++ msg)) := by
        simp [zabbixRequest, maxAuthAttempts, requestAux, authStyleFor, h0, hg3f]
      refine ⟨Or.inl (by rw [hred]), ?_, ?_, ?_⟩
      · rw [hred]
        simp [recoverableFirst, hg3f]
      · intro w hw
        exact AttemptOutcome.noConfusion hw
      · intro _ _
        rw [hred]
        rfl

/-- Oracle answering every attempt with a success, for the C9 witness. -/
def okOracle : Nat → AttemptOutcome := fun _ => AttemptOutcome.ok "hosts"

/-- Witness for C9: under a first-attempt success the request returns that
success after the single Bearer attempt. -/
theorem request_bearer_then_legacy_capped_witness :
    zabbixRequest true false okOracle = ([AuthStyle.bearer], Except.ok "hosts") :=
  (request_bearer_then_legacy_capped okOracle).2.2.1 "hosts" rfl

end ZabbixMCP
